import Mathlib

/-!
# Verification of the IndoT5 medical-text simplification core

Shallow embedding of the string-processing core of the
`indot5-penyederhanaan-teks-medis` repository:

* `src/app/utils/post_processor.py` — dictionary substitution
  (`DictionaryPostProcessor.post_process`), reconciliation
  (`get_simplification_mapping`) and gating (`detect_recognized_terms`);
* `src/app/utils/text_cleaner.py` — `final_cleanup` (causal-clause trim
  variant);
* `src/app.py` — `final_cleanup` (trailing-redundancy trim variant).

Python strings are modelled as Lean `String` / `List Char`; the embedding is
faithful for ASCII text (`Char.isAlphanum`/`Char.toLower` model the `\w`
class and `re.IGNORECASE` folding of the ASCII range). Dictionaries are
modelled as association lists in insertion order, matching Python `dict`
iteration order.
-/

set_option maxRecDepth 8000

namespace IndoT5

/-! ## Character classes -/

/-- The `\w` word-character class of Python `re` (ASCII range):
letters, digits and underscore. -/
def isWordChar (c : Char) : Bool := c.isAlphanum || c == '_'

/-- The `\s` whitespace class of Python `re` / `str.split` / `str.strip`
(ASCII range): space, tab, newline, carriage return, vertical tab, form
feed. -/
def pySpace (c : Char) : Bool :=
  c == ' ' || c == '\t' || c == '\n' || c == '\r' ||
  c == Char.ofNat 11 || c == Char.ofNat 12

/-- Word-character test on an optional character; a position outside the
string counts as a non-word character (as in Python's `\b`). -/
def wordOpt : Option Char → Bool
  | none => false
  | some c => isWordChar c

/-- Case folding of an ASCII string, modelling `str.lower()` and the
`re.IGNORECASE` comparison. -/
def lowerL (l : List Char) : List Char := l.map Char.toLower

/-! ## Term matcher

Model of the pattern `r'\b' + re.escape(term) + r'\b'` used with
`re.IGNORECASE` by `post_process`, `get_simplification_mapping` and
`detect_recognized_terms`.  `re.escape` makes the term match literally, so
the pattern is: a word boundary, the literal term (case-insensitively), a
word boundary. -/

/-- Does the pattern `\b term \b` match (case-insensitively) at the start of
`s`, where `prev` is the character immediately before this position in the
full text?  A `\b` assertion holds at a position iff exactly one of the two
adjacent characters is a word character (a missing character is non-word). -/
def matchAt (term : List Char) (prev : Option Char) (s : List Char) : Bool :=
  (lowerL (s.take term.length) == lowerL term) &&
  (wordOpt prev != wordOpt s.head?) &&
  (wordOpt (s.take term.length).getLast? != wordOpt (s.drop term.length).head?)

/-- Scan of `re.search` for a non-empty literal term: try every position
left to right.  The end-of-string case also covers an empty term (pattern
`\b\b`), which matches at the very end iff the last character is a word
character. -/
def pySearchAux (term : List Char) : Option Char → List Char → Bool
  | prev, [] => term.isEmpty && wordOpt prev
  | prev, c :: cs => matchAt term prev (c :: cs) || pySearchAux term (some c) cs

/-- `re.search(r'\b'+re.escape(term)+r'\b', text, re.IGNORECASE) is not None`.
For an empty term the pattern degenerates to `\b\b = \b`, which finds a
match iff the text contains some word character. -/
def pySearchWW (term text : String) : Bool :=
  if term.data.isEmpty then text.data.any isWordChar
  else pySearchAux term.data none text.data

/-- Scan of `re.sub` for a non-empty literal term: leftmost non-overlapping
matches are replaced by `repl`; boundary lookarounds are evaluated on the
original text.  `fuel` is an upper bound on the number of scan steps; the
wrapper passes the text length, which suffices because every step consumes
at least one character. -/
def pySubAux (term repl : List Char) : Nat → Option Char → List Char → List Char
  | _, _, [] => []
  | 0, _, s => s
  | fuel + 1, prev, c :: cs =>
    if matchAt term prev (c :: cs) then
      repl ++ pySubAux term repl fuel ((c :: cs).take term.length).getLast?
        ((c :: cs).drop term.length)
    else
      c :: pySubAux term repl fuel (some c) cs

/-- `re.sub` for the degenerate empty term (pattern `\b\b = \b`): the
replacement is inserted at every word boundary, including the end of the
string.  `prevW` records whether the previous character is a word
character. -/
def emptySubAux (repl : List Char) : Bool → List Char → List Char
  | prevW, [] => if prevW then repl else []
  | prevW, c :: cs =>
    (if prevW != isWordChar c then repl else []) ++ c :: emptySubAux repl (isWordChar c) cs

/-- `re.sub(r'\b'+re.escape(term)+r'\b', repl, text, flags=re.IGNORECASE)`
with the replacement string inserted literally. -/
def pySubWW (term repl text : String) : String :=
  if term.data.isEmpty then ⟨emptySubAux repl.data false text.data⟩
  else ⟨pySubAux term.data repl.data text.data.length none text.data⟩

/-! ## Dictionary substitution engine

`DictionaryPostProcessor.post_process` (`src/app/utils/post_processor.py`,
lines 79–97): if the dictionary is empty return the text unchanged,
otherwise fold the whole-word case-insensitive substitution of every
`(term, replacement)` entry over the text in dictionary order. -/

def post_process (dictionary : List (String × String)) (text : String) : String :=
  if dictionary.isEmpty then text
  else dictionary.foldl (fun result tr => pySubWW tr.1 tr.2 result) text

/-! ## Simplification reconciler -/

/-- `get_simplification_mapping(text, simplified_text, dictionary)`
(`src/app/utils/post_processor.py`, lines 99–112): for each
`(term, replacement)` entry, if `term` is found (whole-word,
case-insensitive) in `text`, the entry is added when `replacement` is found
in `simplified_text`, or else when `term` is not found in
`simplified_text`. -/
def get_simplification_mapping (text simplified_text : String)
    (dictionary : List (String × String)) : List (String × String) :=
  dictionary.foldl
    (fun m tr =>
      if pySearchWW tr.1 text then
        if pySearchWW tr.2 simplified_text then m ++ [tr]
        else if !pySearchWW tr.1 simplified_text then m ++ [tr]
        else m
      else m)
    []

/-- `detect_recognized_terms(text, dictionary)`
(`src/app/utils/post_processor.py`, lines 114–121): collect the dictionary
keys found whole-word case-insensitively in the text. -/
def detect_recognized_terms (text : String)
    (dictionary : List (String × String)) : List String :=
  dictionary.foldl (fun acc tr => if pySearchWW tr.1 text then acc ++ [tr.1] else acc) []

/-! ## Text artifact cleaner — shared pieces

The repository contains two variants of `final_cleanup`:
`src/app/utils/text_cleaner.py` (causal-clause redundancy trim) and
`src/app.py` (trailing-redundancy trim).  Both share the encoding repair,
punctuation-spacing normalization, duplicate-adjacent-word collapse, casing
normalization and final strip. -/

/-- `ftfy.fix_text`, modelled as the identity.  The encoding-repair step is
an external best-effort library call that leaves already well-formed text
unchanged (spec §4.3 step 1 "fails safe" and §7 `EncodingRepairNoOp`); the
embedding considers well-formed text only. -/
def fix_text (s : String) : String := s

/-- Python's substring test `needle in hay` (case-sensitive, contiguous). -/
def listInfix (needle : List Char) : List Char → Bool
  | [] => needle.isEmpty
  | c :: cs => needle.isPrefixOf (c :: cs) || listInfix needle cs

/-- Python's `needle in hay` on strings. -/
def strIn (needle hay : String) : Bool := listInfix needle.data hay.data

/-- Python `str.strip()`: drop leading and trailing whitespace. -/
def pyStripL (s : List Char) : List Char :=
  ((s.dropWhile pySpace).reverse.dropWhile pySpace).reverse

/-- Python `str.strip()` on `String`. -/
def pyStrip (s : String) : String := ⟨pyStripL s.data⟩

/-- Python `str.rstrip('.,?!')`: drop trailing characters from the set
`. , ? !`. -/
def rstripPunct (s : List Char) : List Char :=
  (s.reverse.dropWhile (fun c => c == '.' || c == ',' || c == '?' || c == '!')).reverse

/-- One of the punctuation marks `. , ? !` of the pattern
`r'\s+([.,?!])'`. -/
def isPunctMark (c : Char) : Bool := c == '.' || c == ',' || c == '?' || c == '!'

/-- Scan of `re.sub(r'\s+([.,?!])', r'\1', s)`: whitespace runs immediately
followed by one of `. , ? !` are deleted (keeping the mark); `pending`
buffers the whitespace run currently being read (in reverse). -/
def punctAux : List Char → List Char → List Char
  | pending, [] => pending.reverse
  | pending, c :: cs =>
    if pySpace c then punctAux (c :: pending) cs
    else if isPunctMark c && !pending.isEmpty then c :: punctAux [] cs
    else pending.reverse ++ c :: punctAux [] cs

/-- `re.sub(r'\s+([.,?!])', r'\1', s)` — collapse whitespace before
punctuation. -/
def punctFix (s : String) : String := ⟨punctAux [] s.data⟩

/-- Scan of `re.sub(r'\b(\w+)\s+\1\b', r'\1', s, flags=re.IGNORECASE)`:
at a word boundary, a maximal word-character run `w` followed by a
whitespace run and a case-insensitive repetition of `w` ending at a word
boundary is replaced by the first occurrence `w`; scanning resumes after
the match.  `prevW`: whether the previous character is a word character;
`fuel` bounds the number of steps (the text length suffices). -/
def dupAux : Nat → Bool → List Char → List Char
  | _, _, [] => []
  | 0, _, s => s
  | fuel + 1, prevW, c :: cs =>
    if isWordChar c && !prevW then
      if !(((c :: cs).dropWhile isWordChar).takeWhile pySpace).isEmpty then
        if lowerL ((((c :: cs).dropWhile isWordChar).dropWhile pySpace).take
              ((c :: cs).takeWhile isWordChar).length)
            == lowerL ((c :: cs).takeWhile isWordChar) then
          if !wordOpt ((((c :: cs).dropWhile isWordChar).dropWhile pySpace).drop
                ((c :: cs).takeWhile isWordChar).length).head? then
            (c :: cs).takeWhile isWordChar ++
              dupAux fuel true ((((c :: cs).dropWhile isWordChar).dropWhile pySpace).drop
                ((c :: cs).takeWhile isWordChar).length)
          else c :: dupAux fuel true cs
        else c :: dupAux fuel true cs
      else c :: dupAux fuel true cs
    else c :: dupAux fuel (isWordChar c) cs

/-- `re.sub(r'\b(\w+)\s+\1\b', r'\1', s, flags=re.IGNORECASE)` — collapse a
word immediately repeated (case-insensitively) after whitespace. -/
def dupCollapse (s : String) : String := ⟨dupAux s.data.length false s.data⟩

/-- Python `s.lower().capitalize()`: lower-case everything, then upper-case
the first character. -/
def pyCapitalize (s : String) : String :=
  match s.data with
  | [] => ""
  | c :: cs => ⟨c.toLower.toUpper :: lowerL cs⟩

/-- The guarded casing normalization `if cleaned_sentence:
cleaned_sentence = cleaned_sentence.lower().capitalize()` shared by both
`final_cleanup` variants. -/
def capitalizeStep (s : String) : String :=
  if s.isEmpty then s else pyCapitalize s

/-! ## Python string splitting -/

/-- Scan of Python `str.split(sep)` for non-empty `sep`: left-to-right,
non-overlapping, empty parts kept.  `acc` is the current part in reverse;
`fuel` bounds the number of steps (the text length suffices). -/
def splitOnAux (sep : List Char) : Nat → List Char → List Char → List (List Char)
  | _, acc, [] => [acc.reverse]
  | 0, acc, rest => [acc.reverse ++ rest]
  | fuel + 1, acc, c :: cs =>
    if sep.isPrefixOf (c :: cs) then
      acc.reverse :: splitOnAux sep fuel [] ((c :: cs).drop sep.length)
    else splitOnAux sep fuel (c :: acc) cs

/-- Python `s.split(sep)` for a non-empty separator (the degenerate empty
separator, which raises in Python, is mapped to the whole string). -/
def splitOnList (sep s : List Char) : List (List Char) :=
  if sep.isEmpty then [s] else splitOnAux sep s.length [] s

/-- Python argument-less `str.split()`: split on whitespace runs, dropping
empty parts. -/
def pySplitWsL : List Char → List (List Char)
  | [] => []
  | c :: cs =>
    if pySpace c then pySplitWsL cs
    else
      match cs with
      | [] => [[c]]
      | d :: _ =>
        if pySpace d then [c] :: pySplitWsL cs
        else
          match pySplitWsL cs with
          | [] => [[c]]
          | w :: ws => (c :: w) :: ws

/-- Python `s.split()` as a list of `String` words. -/
def pySplitWs (s : String) : List String := (pySplitWsL s.data).map String.mk

/-- Python `sep.join(parts)` on character lists. -/
def joinSep (sep : List Char) : List (List Char) → List Char
  | [] => []
  | [w] => w
  | w :: ws => w ++ sep ++ joinSep sep ws

/-! ## Causal-clause trim (`src/app/utils/text_cleaner.py`, lines 7–16) -/

/-- One alternative of
`re.sub(r'^(bisa|dapat)?\s*(sebabkan|menyebabkan)\s*', '', s)`: try the
given choice of the optional first group at the start of `s`, then
whitespace, then `sebabkan` or `menyebabkan` (in that alternation order),
then trailing whitespace; on success return the rest of the string. -/
def tryCausal (pfx : List Char) (s : List Char) : Option (List Char) :=
  if pfx.isPrefixOf s then
    if "sebabkan".data.isPrefixOf ((s.drop pfx.length).dropWhile pySpace) then
      some ((((s.drop pfx.length).dropWhile pySpace).drop 8).dropWhile pySpace)
    else if "menyebabkan".data.isPrefixOf ((s.drop pfx.length).dropWhile pySpace) then
      some ((((s.drop pfx.length).dropWhile pySpace).drop 11).dropWhile pySpace)
    else none
  else none

/-- `re.sub(r'^(bisa|dapat)?\s*(sebabkan|menyebabkan)\s*', '', s)`: the
anchored pattern strips a leading causation prefix once; the optional group
tries `bisa`, then `dapat`, then the empty alternative, exactly as Python's
backtracking does. -/
def stripCausal (s : List Char) : List Char :=
  match tryCausal "bisa".data s with
  | some r => r
  | none =>
    match tryCausal "dapat".data s with
    | some r => r
    | none =>
      match tryCausal [] s with
      | some r => r
      | none => s

/-- One pass of the causal-clause redundancy trim of
`text_cleaner.final_cleanup` for one delimiter:
```python
parts = cleaned_sentence.split(delimiter)
if len(parts) > 1:
    last_part = parts[-1].lower()
    previous_part = parts[-2].lower()
    normalized_last = re.sub(r'^(bisa|dapat)?\s*(sebabkan|menyebabkan)\s*',
                             '', last_part.strip()).rstrip('.,?!')
    if normalized_last and normalized_last in previous_part:
        cleaned_sentence = delimiter.join(parts[:-1])
``` -/
def causalPass (delim : String) (s : String) : String :=
  let parts := splitOnList delim.data s.data
  if 1 < parts.length then
    let normalizedLast := rstripPunct (stripCausal (pyStripL (lowerL (parts.getLastD []))))
    if !normalizedLast.isEmpty &&
        listInfix normalizedLast (lowerL (parts.getD (parts.length - 2) [])) then
      ⟨joinSep delim.data parts.dropLast⟩
    else s
  else s

/-! ## Trailing-redundancy trim (`src/app.py`, lines 28–35) -/

/-- The `for length in (4, 3, 2): ... break` loop of `app.final_cleanup`:
for the first length whose last-`L`-words phrase (joined with single
spaces) occurs verbatim in the joined leading words, return the stripped
leading part; otherwise keep the text. -/
def trimLoop (ws : List String) (orig : String) : List Nat → String
  | [] => orig
  | L :: Ls =>
    if strIn (String.intercalate " " (ws.drop (ws.length - L)))
        (String.intercalate " " (ws.take (ws.length - L))) then
      pyStrip (String.intercalate " " (ws.take (ws.length - L)))
    else trimLoop ws orig Ls

/-- The trailing-redundancy trim step of `app.final_cleanup`:
```python
words = cleaned_sentence.split()
if len(words) >= 7:
    for length in (4, 3, 2):
        end_phrase = " ".join(words[-length:])
        main_part = " ".join(words[:-length])
        if end_phrase in main_part:
            cleaned_sentence = main_part.strip()
            break
``` -/
def trimStage (s : String) : String :=
  if 7 ≤ (pySplitWs s).length then trimLoop (pySplitWs s) s [4, 3, 2] else s

/-! ## The two `final_cleanup` variants -/

/-- `final_cleanup` from `src/app/utils/text_cleaner.py` (lines 4–25):
encoding repair, causal-clause trim for the delimiters `' dan '` then
`','`, punctuation-spacing normalization, duplicate-adjacent-word
collapse, guarded casing normalization, final strip. -/
def TextCleaner.final_cleanup (sentence : String) : String :=
  pyStrip (capitalizeStep (dupCollapse (punctFix
    ([" dan ", ","].foldl (fun acc d => causalPass d acc) (fix_text sentence)))))

/-- `final_cleanup` from `src/app.py` (lines 25–44): encoding repair,
trailing-redundancy trim, punctuation-spacing normalization,
duplicate-adjacent-word collapse, guarded casing normalization, final
strip. -/
def App.final_cleanup (sentence : String) : String :=
  pyStrip (capitalizeStep (dupCollapse (punctFix (trimStage (fix_text sentence)))))

/-! ## Replacement templates of `re.sub`

`post_process` passes the dictionary's replacement value as the `repl`
argument of `re.sub`.  Python parses that replacement as a template before
scanning: escape sequences are expanded, and a group reference (`\1` …)
raises `re.error` when the pattern has fewer groups — the substitution
pattern `r'\b'+re.escape(term)+r'\b'` has none, so every group reference
raises.  `none` models the raised `re.error`.

Modelling notes: specialized to a zero-group pattern; the rare whole-match
reference `\g<0>` (valid in Python) is conservatively treated as invalid —
no theorem below depends on a template containing `\g`. -/

/-- An octal digit `0`–`7`. -/
def isOctDigit (c : Char) : Bool := '0' ≤ c && c ≤ '7'

/-- Value of an octal digit. -/
def octVal (c : Char) : Nat := c.toNat - 48

/-- Parse a `re.sub` replacement template against a zero-group pattern:
literal characters pass through, `\\` and the known letter escapes expand,
octal escapes (`\0oo`, `\ooo`) produce characters, group references and
unknown letter escapes raise (`none`). -/
def parseReplTemplate : List Char → Option (List Char)
  | [] => some []
  | c :: cs =>
    if c == '\\' then
      match cs with
      | [] => none
      | d :: ds =>
        if d == '\\' then (parseReplTemplate ds).map (fun t => '\\' :: t)
        else if d == 'n' then (parseReplTemplate ds).map (fun t => '\n' :: t)
        else if d == 't' then (parseReplTemplate ds).map (fun t => '\t' :: t)
        else if d == 'r' then (parseReplTemplate ds).map (fun t => '\r' :: t)
        else if d == 'a' then (parseReplTemplate ds).map (fun t => Char.ofNat 7 :: t)
        else if d == 'b' then (parseReplTemplate ds).map (fun t => Char.ofNat 8 :: t)
        else if d == 'f' then (parseReplTemplate ds).map (fun t => Char.ofNat 12 :: t)
        else if d == 'v' then (parseReplTemplate ds).map (fun t => Char.ofNat 11 :: t)
        else if d == '0' then
          match ds with
          | [] => some [Char.ofNat 0]
          | e :: es =>
            if isOctDigit e then
              match es with
              | [] => some [Char.ofNat (octVal e)]
              | f :: fs =>
                if isOctDigit f then
                  (parseReplTemplate fs).map (fun t => Char.ofNat (octVal e * 8 + octVal f) :: t)
                else (parseReplTemplate (f :: fs)).map (fun t => Char.ofNat (octVal e) :: t)
            else (parseReplTemplate (e :: es)).map (fun t => Char.ofNat 0 :: t)
        else if d.isDigit then
          match ds with
          | e :: f :: fs =>
            if isOctDigit d && isOctDigit e && isOctDigit f then
              if octVal d * 64 + octVal e * 8 + octVal f ≤ 255 then
                (parseReplTemplate fs).map
                  (fun t => Char.ofNat (octVal d * 64 + octVal e * 8 + octVal f) :: t)
              else none
            else none
          | _ => none
        else if d.isAlpha then none
        else (parseReplTemplate ds).map (fun t => '\\' :: d :: t)
    else (parseReplTemplate cs).map (fun t => c :: t)

/-- `DictionaryPostProcessor.post_process` with Python's exception
behaviour made explicit: `re.sub` parses each replacement template eagerly
and raises `re.error` on an invalid one (modelled as `Except.error`);
otherwise the expanded template is substituted literally. -/
def post_processE (dictionary : List (String × String)) (text : String) :
    Except String String :=
  if dictionary.isEmpty then .ok text
  else
    dictionary.foldlM
      (fun result tr =>
        match parseReplTemplate tr.2.data with
        | none => Except.error "re.error: invalid replacement template"
        | some lit => Except.ok (pySubWW tr.1 ⟨lit⟩ result))
      text

/-! ## Spec-side formulations

Definitions written from the specification's wording, used to state the
trim claims as refinements rather than as literal restatements of the
code. -/

/-- Spec-side formulation of the trailing-redundancy choice (claim C2):
"check — in order of decreasing phrase length 4, then 3, then 2 words —
whether the last N words, joined with single spaces, appear verbatim
(case-sensitive substring check) anywhere within the remaining leading
portion of the text.  At the first length where this holds, truncate the
text to the leading portion (trim trailing whitespace) and stop checking
shorter lengths." -/
def specTrimChoice (ws : List String) (orig : String) : String :=
  match [4, 3, 2].find? (fun L =>
      strIn (String.intercalate " " (ws.drop (ws.length - L)))
        (String.intercalate " " (ws.take (ws.length - L)))) with
  | some L => pyStrip (String.intercalate " " (ws.take (ws.length - L)))
  | none => orig

/-- Spec-side formulation of one causal-clause pass (claim C3): "split the
text on that delimiter.  If more than one part results, […] strip a leading
causation prefix from the last part, strip trailing punctuation, lower-case
both parts, and if the stripped last part is a non-empty substring of the
previous part, drop the last part entirely (rejoin the remaining parts with
the same delimiter)."  The substring test is stated with `List.IsInfix`. -/
def specCausalPass (delim : String) (s : String) : String :=
  match splitOnList delim.data s.data with
  | [] => s
  | [_] => s
  | p₁ :: p₂ :: ps =>
    if rstripPunct (stripCausal (pyStripL (lowerL ((p₁ :: p₂ :: ps).getLastD [])))) ≠ [] ∧
        rstripPunct (stripCausal (pyStripL (lowerL ((p₁ :: p₂ :: ps).getLastD [])))) <:+:
          lowerL ((p₁ :: p₂ :: ps).getD ((p₁ :: p₂ :: ps).length - 2) []) then
      ⟨joinSep delim.data (p₁ :: p₂ :: ps).dropLast⟩
    else s

/-! ## Fixed points of the cleanup steps (for the idempotence claim) -/

/-- Every step of `text_cleaner.final_cleanup` leaves `s` unchanged. -/
def tcStable (s : String) : Bool :=
  (causalPass " dan " s == s) && (causalPass "," s == s) && (punctFix s == s) &&
  (dupCollapse s == s) && (s.isEmpty || (pyCapitalize s == s)) && (pyStrip s == s)

/-- Every step of `app.final_cleanup` leaves `s` unchanged. -/
def appStable (s : String) : Bool :=
  (trimStage s == s) && (punctFix s == s) &&
  (dupCollapse s == s) && (s.isEmpty || (pyCapitalize s == s)) && (pyStrip s == s)

/-! ## Helper lemmas -/

/-- `listInfix` decides the substring relation. -/
theorem listInfix_iff (needle : List Char) :
    ∀ hay : List Char, listInfix needle hay = true ↔ needle <:+: hay := by
  intro hay
  induction hay with
  | nil =>
    simp [listInfix, List.infix_nil, List.isEmpty_iff]
  | cons c cs ih =>
    simp [listInfix, List.infix_cons_iff, ih]

/-- A left fold appending the element on a Boolean test is a filter. -/
theorem foldl_if_append_id {α : Type} (p : α → Bool) :
    ∀ (d : List α) (acc : List α),
      d.foldl (fun m x => if p x then m ++ [x] else m) acc = acc ++ d.filter p := by
  intro d
  induction d with
  | nil => intro acc; simp
  | cons x xs ih =>
    intro acc
    rw [List.foldl_cons, ih]
    cases h : p x <;> simp [List.filter_cons, h]

/-- A left fold appending the first component on a Boolean test is a
filter followed by a projection. -/
theorem foldl_if_append_fst (p : String × String → Bool) :
    ∀ (d : List (String × String)) (acc : List String),
      d.foldl (fun m x => if p x then m ++ [x.1] else m) acc
        = acc ++ (d.filter p).map Prod.fst := by
  intro d
  induction d with
  | nil => intro acc; simp
  | cons x xs ih =>
    intro acc
    rw [List.foldl_cons, ih]
    cases h : p x <;> simp [List.filter_cons, h]

/-- The nested conditionals of `get_simplification_mapping`'s loop body
expressed as one Boolean condition. -/
theorem gsm_step_eq (o f : String) (m : List (String × String)) (tr : String × String) :
    (if pySearchWW tr.1 o then
       if pySearchWW tr.2 f then m ++ [tr]
       else if !pySearchWW tr.1 f then m ++ [tr] else m
     else m)
    = (if pySearchWW tr.1 o && (pySearchWW tr.2 f || !pySearchWW tr.1 f) then
        m ++ [tr] else m) := by
  cases h1 : pySearchWW tr.1 o <;> cases h2 : pySearchWW tr.2 f <;>
    cases h3 : pySearchWW tr.1 f <;> simp [h1, h2, h3]

/-- `get_simplification_mapping` keeps exactly the dictionary entries whose
term is found in the original and whose replacement is found — or term not
found — in the simplified text. -/
theorem gsm_eq_filter (o f : String) (d : List (String × String)) :
    get_simplification_mapping o f d
      = d.filter (fun tr => pySearchWW tr.1 o && (pySearchWW tr.2 f || !pySearchWW tr.1 f)) := by
  unfold get_simplification_mapping
  have hfun :
      (fun (m : List (String × String)) tr =>
        if pySearchWW tr.1 o then
          if pySearchWW tr.2 f then m ++ [tr]
          else if !pySearchWW tr.1 f then m ++ [tr] else m
        else m)
      = fun (m : List (String × String)) tr =>
          if pySearchWW tr.1 o && (pySearchWW tr.2 f || !pySearchWW tr.1 f) then
            m ++ [tr] else m :=
    funext fun m => funext fun tr => gsm_step_eq o f m tr
  rw [hfun, foldl_if_append_id]
  simp

/-- `detect_recognized_terms` is the filtered key list. -/
theorem detect_eq_filter (text : String) (d : List (String × String)) :
    detect_recognized_terms text d
      = (d.filter (fun tr => pySearchWW tr.1 text)).map Prod.fst := by
  unfold detect_recognized_terms
  rw [foldl_if_append_fst]
  simp

/-- If the whole-word search fails at every position, the substitution scan
copies the text unchanged. -/
theorem pySubAux_of_search_false (term repl : List Char) :
    ∀ (fuel : Nat) (prev : Option Char) (s : List Char),
      pySearchAux term prev s = false → pySubAux term repl fuel prev s = s := by
  intro fuel
  induction fuel with
  | zero =>
    intro prev s _
    cases s <;> rfl
  | succ n ih =>
    intro prev s h
    cases s with
    | nil => rfl
    | cons c cs =>
      rw [pySearchAux, Bool.or_eq_false_iff] at h
      rw [pySubAux, if_neg (by simp [h.1]), ih (some c) cs h.2]

/-- Whole-word substitution of a non-empty term absent from the text is the
identity. -/
theorem pySubWW_of_search_false (t r text : String) (ht : t ≠ "")
    (h : pySearchWW t text = false) : pySubWW t r text = text := by
  have hne : t.data.isEmpty = false := by
    cases t with
    | mk data =>
      cases data with
      | nil => exact absurd rfl ht
      | cons a as => rfl
  rw [pySearchWW, if_neg (by simp [hne])] at h
  rw [pySubWW, if_neg (by simp [hne]),
    pySubAux_of_search_false t.data r.data text.data.length none text.data h]

/-- A backslash-free replacement string is its own `re.sub` template. -/
theorem parseReplTemplate_of_no_backslash :
    ∀ l : List Char, '\\' ∉ l → parseReplTemplate l = some l := by
  intro l
  induction l with
  | nil => intro _; rfl
  | cons c cs ih =>
    intro h
    rw [List.mem_cons, not_or] at h
    have hc : (c == '\\') = false := by
      simp only [beq_eq_false_iff_ne, ne_eq]
      exact fun hcc => h.1 (hcc ▸ rfl)
    rw [parseReplTemplate.eq_def]
    simp [hc, ih h.2]

/-- The `for … break` trim loop returns the stripped leading part of the
first length passing the substring test, and the original text when none
does. -/
theorem trimLoop_eq_find (ws : List String) (orig : String) :
    ∀ Ls : List Nat,
      trimLoop ws orig Ls
        = (match Ls.find? (fun L =>
              strIn (String.intercalate " " (ws.drop (ws.length - L)))
                (String.intercalate " " (ws.take (ws.length - L)))) with
          | some L => pyStrip (String.intercalate " " (ws.take (ws.length - L)))
          | none => orig) := by
  intro Ls
  induction Ls with
  | nil => rfl
  | cons L Ls ih =>
    cases h : strIn (String.intercalate " " (ws.drop (ws.length - L)))
        (String.intercalate " " (ws.take (ws.length - L))) <;>
      simp [trimLoop, List.find?, h, ih]

/-- The code's trim loop over the lengths `(4, 3, 2)` equals the spec-side
first-match choice. -/
theorem trimLoop_eq_spec (ws : List String) (orig : String) :
    trimLoop ws orig [4, 3, 2] = specTrimChoice ws orig := by
  rw [trimLoop_eq_find, specTrimChoice]

/-- The code's causal-clause pass equals its spec-side formulation. -/
theorem causalPass_eq_spec (delim s : String) :
    causalPass delim s = specCausalPass delim s := by
  simp only [causalPass, specCausalPass.eq_def]
  cases splitOnList delim.data s.data with
  | nil => simp
  | cons p₁ ps₁ =>
    cases ps₁ with
    | nil => simp
    | cons p₂ ps =>
      rw [if_pos (by simp)]
      exact if_congr
        (by rw [Bool.and_eq_true, Bool.not_eq_true', listInfix_iff, List.isEmpty_eq_false])
        rfl rfl

/-- With backslash-free replacement values, the exception-aware
substitution fold succeeds and computes the plain substitution fold. -/
theorem foldlM_subst_ok :
    ∀ (d : List (String × String)) (text : String),
      (∀ tr ∈ d, '\\' ∉ tr.2.data) →
      (d.foldlM
        (fun result tr =>
          match parseReplTemplate tr.2.data with
          | none => Except.error "re.error: invalid replacement template"
          | some lit => Except.ok (pySubWW tr.1 ⟨lit⟩ result))
        text : Except String String)
      = Except.ok (d.foldl (fun result tr => pySubWW tr.1 tr.2 result) text) := by
  intro d
  induction d with
  | nil => intro text _; rfl
  | cons x xs ih =>
    intro text h
    have hx : '\\' ∉ x.2.data := h x (List.mem_cons_self x xs)
    rw [List.foldlM_cons, parseReplTemplate_of_no_backslash x.2.data hx]
    show (Except.ok (pySubWW x.1 ⟨x.2.data⟩ text) >>= _) = _
    rw [List.foldl_cons]
    have hxs : ∀ tr ∈ xs, '\\' ∉ tr.2.data := fun tr htr => h tr (List.mem_cons_of_mem x htr)
    exact ih (pySubWW x.1 x.2 text) hxs

/-- Exception-aware `post_process` agrees with the plain model whenever no
replacement value contains a backslash. -/
theorem post_processE_ok (d : List (String × String)) (text : String)
    (h : ∀ tr ∈ d, '\\' ∉ tr.2.data) :
    post_processE d text = Except.ok (post_process d text) := by
  rw [post_processE, post_process]
  cases hd : d.isEmpty
  · simp only [Bool.false_eq_true, if_false]
    exact foldlM_subst_ok d text h
  · simp

/-- The guarded casing normalization fixes `s` when `s` is empty or already
its own capitalization. -/
theorem capitalizeStep_of_stable {s : String}
    (h : (s.isEmpty || (pyCapitalize s == s)) = true) : capitalizeStep s = s := by
  rw [capitalizeStep]
  cases he : s.isEmpty
  · rw [he, Bool.false_or] at h
    simp [eq_of_beq h]
  · simp

/-- A string fixed by every cleanup step is fixed by
`text_cleaner.final_cleanup`. -/
theorem tc_cleanup_fixed {s : String} (h : tcStable s = true) :
    TextCleaner.final_cleanup s = s := by
  rw [tcStable] at h
  simp only [Bool.and_eq_true] at h
  obtain ⟨⟨⟨⟨⟨h1, h2⟩, h3⟩, h4⟩, h5⟩, h6⟩ := h
  show pyStrip (capitalizeStep (dupCollapse (punctFix
    (causalPass "," (causalPass " dan " (fix_text s)))))) = s
  rw [fix_text, eq_of_beq h1, eq_of_beq h2, eq_of_beq h3, eq_of_beq h4,
    capitalizeStep_of_stable h5, eq_of_beq h6]

/-- A string fixed by every cleanup step is fixed by `app.final_cleanup`. -/
theorem app_cleanup_fixed {s : String} (h : appStable s = true) :
    App.final_cleanup s = s := by
  rw [appStable] at h
  simp only [Bool.and_eq_true] at h
  obtain ⟨⟨⟨⟨h1, h2⟩, h3⟩, h4⟩, h5⟩ := h
  show pyStrip (capitalizeStep (dupCollapse (punctFix (trimStage (fix_text s))))) = s
  rw [fix_text, eq_of_beq h1, eq_of_beq h2, eq_of_beq h3,
    capitalizeStep_of_stable h4, eq_of_beq h5]

/-! ## Claim theorems -/

/-- C1: for every dictionary entry `(term, simplified)`,
`get_simplification_mapping originalText finalText dictionary` contains the
entry iff `term` occurs whole-word case-insensitively in `originalText`
and, in addition, either `simplified` is found in `finalText` or `term` is
not found in `finalText`; together with the spec's disappearance example
(final text contains neither term nor replacement → entry kept) and
untouched example (term survives verbatim, replacement absent → entry
omitted). -/
theorem c1_buildMap_membership :
    (∀ (d : List (String × String)) (orig fin t r : String),
      (t, r) ∈ d →
      ((t, r) ∈ get_simplification_mapping orig fin d ↔
        pySearchWW t orig = true ∧
          (pySearchWW r fin = true ∨ pySearchWW t fin = false)))
    ∧ get_simplification_mapping "Pasien menderita diabetes" "Pasien sakit kencing manis"
        [("diabetes", "penyakit gula")] = [("diabetes", "penyakit gula")]
    ∧ get_simplification_mapping "Pasien menderita diabetes" "Pasien menderita diabetes kronis"
        [("diabetes", "penyakit gula")] = [] := by
  refine ⟨?_, by decide, by decide⟩
  intro d orig fin t r hmem
  rw [gsm_eq_filter, List.mem_filter]
  simp [hmem, Bool.and_eq_true, Bool.or_eq_true, Bool.not_eq_true']

/-- Witness for C1 at a concrete dictionary, original and final text. -/
theorem c1_buildMap_membership_witness :
    ("diabetes", "penyakit gula") ∈
        get_simplification_mapping "Pasien diabetes" "kadar gula membaik"
          [("diabetes", "penyakit gula")] ↔
      pySearchWW "diabetes" "Pasien diabetes" = true ∧
        (pySearchWW "penyakit gula" "kadar gula membaik" = true ∨
          pySearchWW "diabetes" "kadar gula membaik" = false) :=
  c1_buildMap_membership.1 [("diabetes", "penyakit gula")] "Pasien diabetes"
    "kadar gula membaik" "diabetes" "penyakit gula" (by decide)

/-- C2: `app.final_cleanup` factors through the trailing-redundancy trim
step, and that step leaves texts with fewer than 7 whitespace-separated
words unchanged while, for texts with at least 7 words, it truncates at the
first phrase length among 4, 3, 2 whose last words (joined by single
spaces) occur verbatim in the joined leading words; with a concrete trimmed
example and a concrete short example. -/
theorem c2_trailing_trim :
    (∀ s : String, App.final_cleanup s
        = pyStrip (capitalizeStep (dupCollapse (punctFix (trimStage (fix_text s))))))
    ∧ (∀ s : String, trimStage s
        = if 7 ≤ (pySplitWs s).length then specTrimChoice (pySplitWs s) s else s)
    ∧ App.final_cleanup
        "mohon istirahat yang cukup agar cepat sembuh mohon istirahat yang cukup"
        = "Mohon istirahat yang cukup agar cepat sembuh"
    ∧ App.final_cleanup "pasien harus rajin minum obat" = "Pasien harus rajin minum obat" := by
  refine ⟨fun s => rfl, fun s => ?_, by decide, by decide⟩
  rw [trimStage]
  by_cases h : 7 ≤ (pySplitWs s).length
  · rw [if_pos h, if_pos h, trimLoop_eq_spec]
  · rw [if_neg h, if_neg h]

/-- C3: `text_cleaner.final_cleanup` factors through the two causal-clause
passes, first for the delimiter `" dan "`, then — on that pass's output —
for `","`, and each pass behaves as the spec describes (split, strip
causation prefix and trailing punctuation from the lower-cased last part,
drop it when it is a non-empty substring of the lower-cased previous part);
with concrete examples for both delimiters. -/
theorem c3_causal_trim :
    (∀ s : String, TextCleaner.final_cleanup s
        = pyStrip (capitalizeStep (dupCollapse (punctFix
            (causalPass "," (causalPass " dan " (fix_text s)))))))
    ∧ (∀ s : String, causalPass " dan " s = specCausalPass " dan " s)
    ∧ (∀ s : String, causalPass "," s = specCausalPass "," s)
    ∧ TextCleaner.final_cleanup "Rokok menyebabkan kanker, bisa menyebabkan kanker"
        = "Rokok menyebabkan kanker"
    ∧ TextCleaner.final_cleanup "Stres menyebabkan pusing dan pusing"
        = "Stres menyebabkan pusing" :=
  ⟨fun s => rfl, fun s => causalPass_eq_spec " dan " s, fun s => causalPass_eq_spec "," s,
    by decide, by decide⟩

/-- C4: `detect_recognized_terms` returns exactly the dictionary keys (not
values) occurring whole-word case-insensitively in the text; it is empty
for the empty dictionary, and the spec's gating examples hold. -/
theorem c4_detect_terms :
    (∀ (text : String) (d : List (String × String)) (t : String),
      t ∈ detect_recognized_terms text d ↔
        t ∈ d.map Prod.fst ∧ pySearchWW t text = true)
    ∧ (∀ text : String, detect_recognized_terms text [] = [])
    ∧ detect_recognized_terms "Hari ini cerah" [("hipertensi", "tekanan darah tinggi")] = []
    ∧ detect_recognized_terms "Pasien hipertensi" [("hipertensi", "tekanan darah tinggi")]
        = ["hipertensi"] := by
  refine ⟨?_, fun text => rfl, by decide, by decide⟩
  intro text d t
  rw [detect_eq_filter]
  simp only [List.mem_map, List.mem_filter]
  constructor
  · rintro ⟨tr, ⟨htr, hp⟩, hfst⟩
    exact ⟨⟨tr, htr, hfst⟩, hfst ▸ hp⟩
  · rintro ⟨⟨tr, htr, hfst⟩, hs⟩
    exact ⟨tr, ⟨htr, by rw [hfst]; exact hs⟩, hfst⟩

/-- C5: substitution with an empty dictionary is the identity and is a
no-op rather than an error (also in the exception-aware model). -/
theorem c5_empty_dictionary_identity :
    ∀ x : String, post_process [] x = x ∧ post_processE [] x = Except.ok x :=
  fun _ => ⟨rfl, rfl⟩

/-- C6: for a single-entry dictionary, `post_process` is exactly the
whole-word case-insensitive substitution of the term: a non-empty term
absent as a whole word leaves the text untouched (in particular an
occurrence glued to word characters, as in "anemias"), matching is
case-insensitive with the replacement inserted in its own casing, and
special characters in the term are matched literally. -/
theorem c6_single_entry_substitution :
    (∀ t r text : String, post_process [(t, r)] text = pySubWW t r text)
    ∧ (∀ t r text : String, t ≠ "" → pySearchWW t text = false → pySubWW t r text = text)
    ∧ post_process [("anemia", "X")] "anemias present" = "anemias present"
    ∧ post_process [("anemia", "X")] "anemia present" = "X present"
    ∧ post_process [("hipertensi", "tekanan darah tinggi")] "Pasien HIPERTENSI"
        = "Pasien tekanan darah tinggi"
    ∧ post_process [("a.b", "Z")] "x a.b y" = "x Z y"
    ∧ post_process [("a.b", "Z")] "x acb y" = "x acb y" :=
  ⟨fun _ _ _ => rfl, fun t r text => pySubWW_of_search_false t r text,
    by decide, by decide, by decide, by decide, by decide⟩

/-- Witness for C6 at the spec's whole-word boundary example. -/
theorem c6_single_entry_substitution_witness :
    "anemia" ≠ "" ∧ pySearchWW "anemia" "anemias present" = false ∧
      pySubWW "anemia" "X" "anemias present" = "anemias present" :=
  ⟨by decide, by decide,
    c6_single_entry_substitution.2.1 "anemia" "X" "anemias present" (by decide) (by decide)⟩

/-- C7 counterexample: cleanup is not idempotent, even on its own outputs
(which have passed casing/punctuation normalization), and convergence can
need more than one extra pass.  `clean "dengan dengan dengan" =
"Dengan dengan"` but a second pass gives `"Dengan"`; on `"d d d d d"`
three extra passes are needed. -/
theorem c7_idempotence_counterexample :
    TextCleaner.final_cleanup "dengan dengan dengan" = "Dengan dengan"
    ∧ TextCleaner.final_cleanup "Dengan dengan" = "Dengan"
    ∧ TextCleaner.final_cleanup (TextCleaner.final_cleanup "dengan dengan dengan")
        ≠ TextCleaner.final_cleanup "dengan dengan dengan"
    ∧ App.final_cleanup (App.final_cleanup "dengan dengan dengan")
        ≠ App.final_cleanup "dengan dengan dengan"
    ∧ TextCleaner.final_cleanup "d d d d d" = "D d d"
    ∧ TextCleaner.final_cleanup "D d d" = "D d"
    ∧ TextCleaner.final_cleanup "D d" = "D" := by
  decide

/-- C7 (amended): a second cleanup pass makes no further changes whenever
every individual cleanup step already leaves the first pass's output
unchanged; in general, idempotence fails because the single left-to-right
duplicate-word collapse (and the trims) can find new matches on the second
pass. -/
theorem c7_idempotence_amended :
    ∀ x : String,
      (tcStable (TextCleaner.final_cleanup x) = true →
        TextCleaner.final_cleanup (TextCleaner.final_cleanup x)
          = TextCleaner.final_cleanup x)
      ∧ (appStable (App.final_cleanup x) = true →
        App.final_cleanup (App.final_cleanup x) = App.final_cleanup x) :=
  fun _ => ⟨fun h => tc_cleanup_fixed h, fun h => app_cleanup_fixed h⟩

/-- Witness for the amended C7 at a concrete input whose cleanup output is
stable under every step. -/
theorem c7_idempotence_amended_witness :
    (tcStable (TextCleaner.final_cleanup "halo dunia") = true ∧
      TextCleaner.final_cleanup (TextCleaner.final_cleanup "halo dunia")
        = TextCleaner.final_cleanup "halo dunia")
    ∧ (appStable (App.final_cleanup "halo dunia") = true ∧
      App.final_cleanup (App.final_cleanup "halo dunia") = App.final_cleanup "halo dunia") :=
  ⟨⟨by decide, (c7_idempotence_amended "halo dunia").1 (by decide)⟩,
    ⟨by decide, (c7_idempotence_amended "halo dunia").2 (by decide)⟩⟩

/-- C8 counterexample: substitution is not total for arbitrary replacement
strings — a replacement value `"\1"` is a group reference into a pattern
with no groups, so Python's `re.sub` raises `re.error` (modelled as
`Except.error`) instead of returning a value. -/
theorem c8_totality_counterexample :
    post_processE [("a", "\\1")] "a"
        = Except.error "re.error: invalid replacement template"
    ∧ parseReplTemplate "\\1".data = none :=
  ⟨rfl, rfl⟩

/-- C8 (amended): the cleaners and the reconciler are total, substitution
never raises provided every replacement value is free of backslash escape
sequences, and cleanup of an empty or whitespace-only string returns the
empty string instead of throwing. -/
theorem c8_totality_amended :
    (∀ (d : List (String × String)) (text : String),
      (∀ tr ∈ d, '\\' ∉ tr.2.data) →
      post_processE d text = Except.ok (post_process d text))
    ∧ TextCleaner.final_cleanup "" = ""
    ∧ TextCleaner.final_cleanup "   " = ""
    ∧ App.final_cleanup "" = ""
    ∧ App.final_cleanup " \t " = "" :=
  ⟨post_processE_ok, by decide, by decide, by decide, by decide⟩

/-- Witness for the amended C8 at a concrete backslash-free dictionary. -/
theorem c8_totality_amended_witness :
    '\\' ∉ "kurang darah".data
    ∧ post_processE [("anemia", "kurang darah")] "Pasien anemia"
        = Except.ok (post_process [("anemia", "kurang darah")] "Pasien anemia") :=
  ⟨by decide,
    c8_totality_amended.1 [("anemia", "kurang darah")] "Pasien anemia" (by decide)⟩

/-- C9: the finalText checks of `get_simplification_mapping` are whole-word
and case-insensitive, exactly like the originalText check: a simplified
value present in finalText with different casing still counts as found, and
a term present in finalText only inside a longer word counts as not found —
in both situations the entry is kept. -/
theorem c9_final_text_checks :
    pySearchWW "penyakit gula" "Pasien diabetes dengan PENYAKIT GULA" = true
    ∧ pySearchWW "diabetes" "prediabetesnya membaik" = false
    ∧ get_simplification_mapping "Pasien diabetes" "Pasien diabetes dengan PENYAKIT GULA"
        [("diabetes", "penyakit gula")] = [("diabetes", "penyakit gula")]
    ∧ get_simplification_mapping "Pasien diabetes" "prediabetesnya membaik"
        [("diabetes", "penyakit gula")] = [("diabetes", "penyakit gula")] := by
  decide

/-- C10: the duplicate-adjacent-word collapse is a single left-to-right
non-overlapping pass: three identical adjacent words collapse to two, so a
single cleanup of "dengan dengan dengan" yields "Dengan dengan", which
still contains an adjacent duplicate pair. -/
theorem c10_duplicate_collapse_single_pass :
    TextCleaner.final_cleanup "dengan dengan dengan" = "Dengan dengan"
    ∧ App.final_cleanup "dengan dengan dengan" = "Dengan dengan"
    ∧ dupCollapse "dengan dengan dengan" = "dengan dengan"
    ∧ dupCollapse "Dengan dengan" ≠ "Dengan dengan" := by
  decide

end IndoT5
